import Mathlib

/-!
Verification of `global_lock.h`, a single-header process-wide lock with a
preprocessor-selected backing strategy.  The definitions below are a shallow
embedding of the header: the compile-time `#if`/`#elif` selection chain is a
function over the capability facts it tests, the runtime branches of
`lock()`/`unlock()`/`global_lock_quit()` are functions over explicit state,
and the concurrent behaviour of the spin lock and of the one-time
initialisation guard is given by small-step interleaving semantics.
-/

namespace GlobalLock

/-! ## Strategy selection (lines 76-140) -/

/-- Compile-time capability facts tested by the preprocessor chain at
lines 76-140 of `global_lock.h`:
`c11Threads` is `__STDC_VERSION__ >= 201112L && !__STDC_NO_THREADS__` (line 76),
`posixThreads` is `_POSIX_THREADS > 0` (line 89),
`win32` is `_WIN32` (line 94),
`c11Atomics` is `__STDC_VERSION__ >= 201112L && !__STDC_NO_ATOMICS__` (line 114),
`gccAtomicBuiltin` is a GCC/Clang with `__atomic_exchange_n` (lines 119-132),
`gccSyncBuiltin` is a GCC/Clang with `__sync_lock_test_and_set` (lines 119-132). -/
structure PlatformCaps where
  c11Threads : Bool
  posixThreads : Bool
  win32 : Bool
  c11Atomics : Bool
  gccAtomicBuiltin : Bool
  gccSyncBuiltin : Bool
  deriving DecidableEq, Fintype

/-- The six backing strategies the header can compile to: `nativeMutex` is the
C11 `mtx_t` branch, `posixMutex` the `pthread_mutex_t` branch, `windowsCS` the
`CRITICAL_SECTION` branch, `atomicFlagSpin` the `atomic_flag` branch,
`builtinAtomicSpin` the `__atomic_exchange_n` branch and `builtinSyncSpin` the
`__sync_lock_test_and_set` branch. -/
inductive LockPrimitiveKind where
  | nativeMutex
  | posixMutex
  | windowsCS
  | atomicFlagSpin
  | builtinAtomicSpin
  | builtinSyncSpin
  deriving DecidableEq, Fintype

/-- The `#if`/`#elif`/`#else` chain of lines 76-140, read top to bottom, with
`none` standing for the `#error` directives at lines 136 and 139 (compilation
fails; no strategy is bound).  Within the GCC branch the header tests
`__atomic_exchange_n` before `__sync_lock_test_and_set` (lines 121-131), which
the order of the last two tests reproduces. -/
def selectStrategy (c : PlatformCaps) : Option LockPrimitiveKind :=
  if c.c11Threads then some .nativeMutex
  else if c.posixThreads then some .posixMutex
  else if c.win32 then some .windowsCS
  else if c.c11Atomics then some .atomicFlagSpin
  else if c.gccAtomicBuiltin then some .builtinAtomicSpin
  else if c.gccSyncBuiltin then some .builtinSyncSpin
  else none

/-! ## Scope configuration (lines 40-50, 156, 190) -/

/-- Lines 48-50: when the user defines no `GLOBAL_LOCK_FUNC_SCOPE`, the header
substitutes a blank; a user-supplied value is passed through unchanged.  The
header contains no other occurrence of the macro besides the verbatim pastes
at lines 156 and 190 - it never tests the value. -/
def effectiveScope (userScope : Option String) : String := userScope.getD ""

/-- The token sequence the preprocessor emits for the lock function's
definition at line 156 (`GLOBAL_LOCK_FUNC_SCOPE void GLOBAL_LOCK_FUNC_NAME (void)`):
the scope macro's value is pasted verbatim in front of the definition. -/
def lockFunctionDecl (scope name : String) : String :=
  scope ++ " void " ++ name ++ " (void)"

/-- Modelled from the C language, to which the header delegates acceptance of
the pasted scope token entirely: a C compiler accepts a function definition
whose pasted prefix is a valid (possibly empty) sequence of declaration
specifiers for that position, such as a storage-class specifier or a function
specifier (C11 6.7.1, 6.7.4).  Only a few representatives are listed; the
point is that the set is not `{blank, static}`. -/
def cDeclSpecifierOk (scope : String) : Bool :=
  scope = "" || scope = "static" || scope = "extern" ||
    scope = "inline" || scope = "static inline" || scope = "extern inline"

/-- Whether the translation unit that includes the header compiles, as a
function of the user-supplied scope value: the header adds no check of its
own, so the outcome is `cDeclSpecifierOk` of the effective value. -/
def buildAccepts (userScope : Option String) : Bool :=
  cDeclSpecifierOk (effectiveScope userScope)

/-! ## Error exits -/

/-- Value of the C constant `EXIT_FAILURE` passed to `exit` at lines 86
and 166. -/
def EXIT_FAILURE : Nat := 1

/-- Outcome of running `init_mtx` (lines 83-88): either it returns with the
mutex constructed, or the process is terminated by `exit` after writing one
diagnostic line to stderr. -/
inductive InitMtxOutcome where
  | ret
  | exited (status : Nat) (stderrOutput : String)
  deriving DecidableEq

/-- Value of `__FILE__` in the header's diagnostic at line 85. -/
def global_lock_FILE : String := "global_lock.h"

/-- Value of `__LINE__` at the `fprintf` call of line 85. -/
def init_mtx_LINE : Nat := 85

/-- Lines 83-88: `init_mtx` calls `mtx_init(&global_lock_lock_mutex, mtx_plain)`;
`mtxInitSucceeds` records whether that call returned `thrd_success`.  On
failure it prints the diagnostic of line 85 to stderr and calls
`exit(EXIT_FAILURE)`; on success it returns. -/
def init_mtx (mtxInitSucceeds : Bool) : InitMtxOutcome :=
  if mtxInitSucceeds then .ret
  else .exited EXIT_FAILURE
    ("Failed to initialize the mutex!\nFile: " ++ global_lock_FILE ++
      "   Line: " ++ toString init_mtx_LINE ++ "\n")

/-! ## Windows version check (lines 105-113, 163-173) -/

/-- Lines 106-113: `is_windows_vista_or_later` queries `GetVersionEx`;
`versionQuery = none` models the query failing (lines 109-111 return false),
`some major` models success reporting `dwMajorVersion = major` (line 112). -/
def is_windows_vista_or_later (versionQuery : Option Nat) : Bool :=
  match versionQuery with
  | none => false
  | some major => decide (6 ≤ major)

/-- Outcome of the Windows branch of `lock()` (lines 163-173): either the
process is terminated by `exit` (carrying the status and every line written to
stderr on that path), or control reaches `EnterCriticalSection` with the
recorded new value of `winver_checked`. -/
inductive WinLockOutcome where
  | exited (status : Nat) (stderrLines : List String)
  | acquired (winverChecked : Bool)
  deriving DecidableEq

/-- Lines 163-173: when `winver_checked` is still false, `lock()` runs the
version check; on a bad or failed version it calls `exit(EXIT_FAILURE)` -
note that this path prints nothing (line 166 is a bare `exit`) - otherwise it
sets `winver_checked` and falls through to `InitOnceExecuteOnce` and
`EnterCriticalSection`. -/
def winLock (winverChecked : Bool) (versionQuery : Option Nat) : WinLockOutcome :=
  if winverChecked = false then
    if !is_windows_vista_or_later versionQuery then
      .exited EXIT_FAILURE []
    else
      .acquired true
  else
    .acquired winverChecked

/-! ## Shutdown (lines 207-215) -/

/-- The pieces of program state `global_lock_quit` can touch: whether the
mutex object was destroyed (`mtx_destroy` / `pthread_mutex_destroy`), whether
the critical-section object was deleted (`DeleteCriticalSection`), and the
in-process lock variables of the spin strategies. -/
structure ProgState where
  mutexDestroyed : Bool
  csDeleted : Bool
  flag : Bool
  lockInt : Nat
  winverChecked : Bool
  deriving DecidableEq

/-- Lines 207-215: `global_lock_quit` destroys the mutex on the C11 branch
(line 209) and the POSIX branch (line 211), deletes the critical section on
the Windows branch (line 213), and has an empty body - no `#elif` arm at
all - on the three spin strategies. -/
def global_lock_quit (k : LockPrimitiveKind) (s : ProgState) : ProgState :=
  match k with
  | .nativeMutex => { s with mutexDestroyed := true }
  | .posixMutex => { s with mutexDestroyed := true }
  | .windowsCS => { s with csDeleted := true }
  | .atomicFlagSpin => s
  | .builtinAtomicSpin => s
  | .builtinSyncSpin => s

/-! ## SpinWait (lines 143-153) -/

/-- The three spin-wait primitives of lines 143-153: `_mm_pause()` (line 146),
`sched_yield()` (line 149), and the 1000-iteration volatile busy loop
(line 151). -/
inductive SpinWaitKind where
  | pause
  | schedYield
  | busyLoop
  deriving DecidableEq

/-- The secondary probe of lines 144-152: x86/x86-64 targets get the pause
instruction; otherwise `_POSIX_PRIORITY_SCHEDULING` selects `sched_yield`;
otherwise the busy loop.  Its inputs are only these two facts - none of the
six capability facts of the main selection appears. -/
def selectSpinWait (x86 posixPrioritySched : Bool) : SpinWaitKind :=
  if x86 then .pause
  else if posixPrioritySched then .schedYield
  else .busyLoop

/-- Iteration count of the busy-loop fallback at line 151. -/
def busyLoopCount : Nat := 1000

/-- One iteration of the busy-loop body at line 151: the inline asm statement
is a compiler memory barrier with an empty template - it performs no read or
write of any program variable, so its effect on the modelled state is the
identity. -/
def barrierStep (s : ProgState) : ProgState := s

/-- Effect of one `SPIN_WAIT()` invocation on the lock state, together with
the number of wait iterations it performs: the pause instruction and
`sched_yield` are single foreign calls touching no program variable; the busy
loop folds `barrierStep` over `busyLoopCount` iterations. -/
def spinWaitRun : SpinWaitKind → ProgState → ProgState × Nat
  | .pause, s => (s, 1)
  | .schedYield, s => (s, 1)
  | .busyLoop, s => ((List.range busyLoopCount).foldl (fun a _ => barrierStep a) s, busyLoopCount)

/-! ## The spin-lock primitives and loop (lines 174-186, 197-203) -/

/-- One execution of `atomic_flag_test_and_set_explicit(&global_lock_lock_flag,
memory_order_acquire)` (line 175) on the flag value it observes: the result is
(the observed old value, the value stored). -/
def atomic_flag_test_and_set (flag : Bool) : Bool × Bool := (flag, true)

/-- One execution of `__atomic_exchange_n(&global_lock_lock_int, 1,
__ATOMIC_SEQ_CST)` (line 179): (observed old value, stored value). -/
def atomic_exchange_n (v : Nat) : Nat × Nat := (v, 1)

/-- One execution of `__sync_lock_test_and_set(&global_lock_lock_int, 1)`
(line 183): (observed old value, stored value). -/
def sync_lock_test_and_set (v : Nat) : Nat × Nat := (v, 1)

/-- Line 198: `atomic_flag_clear_explicit` stores the clear value,
unconditionally, whatever the flag held; the C call returns void. -/
def atomic_flag_clear (_flag : Bool) : Bool := false

/-- Line 200: `__atomic_store_n(&global_lock_lock_int, 0, __ATOMIC_SEQ_CST)`,
unconditional, void. -/
def atomic_store_n_zero (_v : Nat) : Nat := 0

/-- Line 202: `__sync_lock_release(&global_lock_lock_int)` stores 0,
unconditional, void. -/
def sync_lock_release (_v : Nat) : Nat := 0

/-- The `while (test-and-set) SPIN_WAIT();` loop of lines 175-177, indexed by
the successive flag values the attempts observe (concurrent threads determine
them).  `some k` means the loop exited after exactly `k` failed attempts, each
followed by one `SPIN_WAIT()` invocation, so with exactly `k` spin waits;
`none` means every attempt in `obs` observed the flag taken and the loop is
still running. -/
def spinLockRunFlag : List Bool → Option Nat
  | [] => none
  | b :: rest =>
    if (atomic_flag_test_and_set b).1 = true then
      (spinLockRunFlag rest).map (fun n => n + 1)
    else some 0

/-- The loop of lines 179-181 (`__atomic_exchange_n` strategy), as
`spinLockRunFlag` but over the observed int values, busy while the observed
value is nonzero. -/
def spinLockRunAtomic : List Nat → Option Nat
  | [] => none
  | v :: rest =>
    if (atomic_exchange_n v).1 ≠ 0 then
      (spinLockRunAtomic rest).map (fun n => n + 1)
    else some 0

/-- The loop of lines 183-185 (`__sync_lock_test_and_set` strategy). -/
def spinLockRunSync : List Nat → Option Nat
  | [] => none
  | v :: rest =>
    if (sync_lock_test_and_set v).1 ≠ 0 then
      (spinLockRunSync rest).map (fun n => n + 1)
    else some 0

/-! ## Action traces of lock() (lines 156-187) -/

/-- The observable actions a call of `lock()` can perform, one per statement
of lines 156-187: the Windows version check (lines 164-169), the one-time
initialisation guard (`call_once` at line 158 / `InitOnceExecuteOnce` at
line 171), a blocking acquisition (`mtx_lock`, `pthread_mutex_lock`,
`EnterCriticalSection`), one test-and-set/exchange attempt, and one
`SPIN_WAIT()` invocation. -/
inductive LockAction where
  | versionCheck
  | onceInit
  | acquireBlocking
  | tasAttempt
  | spinWait
  deriving DecidableEq

/-- Whether an action is an acquisition action (a blocking acquire or a
test-and-set attempt). -/
def isAcquireAction : LockAction → Bool
  | .acquireBlocking => true
  | .tasAttempt => true
  | _ => false

/-- Action sequence of the spin loop when the first `failedAttempts` attempts
observe the flag taken: each failed attempt is followed by exactly one
`SPIN_WAIT()` (line 176), and the final attempt succeeds. -/
def spinAttemptTrace : Nat → List LockAction
  | 0 => [.tasAttempt]
  | f + 1 => .tasAttempt :: .spinWait :: spinAttemptTrace f

/-- The statement sequence one call of `lock()` executes per strategy
(lines 156-187): the C11 branch is lines 158 and 160; the POSIX branch is the
single statement of line 162; the Windows branch runs the version check only
while `winver_checked` is false (lines 164-169), then lines 171 and 173; the
three spin branches are the loop of lines 174-186, here with `failedAttempts`
contended attempts. -/
def lockTrace (k : LockPrimitiveKind) (winverChecked : Bool)
    (failedAttempts : Nat) : List LockAction :=
  match k with
  | .nativeMutex => [.onceInit, .acquireBlocking]
  | .posixMutex => [.acquireBlocking]
  | .windowsCS =>
    (if winverChecked then [] else [.versionCheck]) ++ [.onceInit, .acquireBlocking]
  | .atomicFlagSpin => spinAttemptTrace failedAttempts
  | .builtinAtomicSpin => spinAttemptTrace failedAttempts
  | .builtinSyncSpin => spinAttemptTrace failedAttempts

/-! ## Interleaving semantics of the spin lock (mutual exclusion)

Threads run `lock(); tmp = counter; counter = tmp + 1; unlock();` in a loop
against the atomic-flag spin lock (lines 174-177 and 197-198; the two builtin
strategies differ only in spelling 0/1 for false/true).  The critical section
is split into its two racy halves - the read and the write of the shared
counter - so that lost updates are representable; the test-and-set and the
clear are single atomic steps, as the C atomics are. -/

/-- Program counter of one looping thread: `trying` is at the test-and-set of
line 175, `reading` and `writing tmp` are the two halves of the increment
inside the critical section, `unlocking` is at the clear of line 198. -/
inductive ThreadPC where
  | trying
  | reading
  | writing (tmp : Nat)
  | unlocking
  deriving DecidableEq

/-- One thread: its program counter and how many full
lock-increment-unlock iterations it has completed. -/
structure Thread where
  pc : ThreadPC
  done : Nat
  deriving DecidableEq

/-- The shared system: the atomic flag (`global_lock_lock_flag`, statically
clear via `ATOMIC_FLAG_INIT`, line 118), the shared counter of the property,
and `T` threads. -/
structure SpinSys (T : Nat) where
  flag : Bool
  counter : Nat
  threads : Fin T → Thread
  deriving DecidableEq

/-- Initial state: flag clear (`ATOMIC_FLAG_INIT`), counter 0, every thread
about to make its first attempt. -/
def spinInit (T : Nat) : SpinSys T :=
  ⟨false, 0, fun _ => ⟨.trying, 0⟩⟩

/-- One interleaved atomic step, any thread `i` moving; `N` bounds each
thread's iterations.  `acquire`/`spinFail` are the two outcomes of one
test-and-set of line 175 (on failure the thread spin-waits, which changes no
shared state - `spinFail` leaves the state unchanged); `readCounter` and
`writeCounter` are the two halves of the critical-section increment;
`release` is the clear of line 198 followed by the loop bookkeeping. -/
inductive SpinStep (T N : Nat) : SpinSys T → SpinSys T → Prop
  | acquire (s : SpinSys T) (i : Fin T) (d : Nat) :
      s.threads i = ⟨.trying, d⟩ → d < N → s.flag = false →
      SpinStep T N s ⟨true, s.counter, Function.update s.threads i ⟨.reading, d⟩⟩
  | spinFail (s : SpinSys T) (i : Fin T) (d : Nat) :
      s.threads i = ⟨.trying, d⟩ → d < N → s.flag = true →
      SpinStep T N s s
  | readCounter (s : SpinSys T) (i : Fin T) (d : Nat) :
      s.threads i = ⟨.reading, d⟩ →
      SpinStep T N s ⟨s.flag, s.counter, Function.update s.threads i ⟨.writing s.counter, d⟩⟩
  | writeCounter (s : SpinSys T) (i : Fin T) (d tmp : Nat) :
      s.threads i = ⟨.writing tmp, d⟩ →
      SpinStep T N s ⟨s.flag, tmp + 1, Function.update s.threads i ⟨.unlocking, d⟩⟩
  | release (s : SpinSys T) (i : Fin T) (d : Nat) :
      s.threads i = ⟨.unlocking, d⟩ →
      SpinStep T N s ⟨false, s.counter, Function.update s.threads i ⟨.trying, d + 1⟩⟩

/-- A thread holds the lock when its pc is anywhere past a successful
test-and-set and before the clear has completed. -/
def holdsLock (t : Thread) : Bool :=
  match t.pc with
  | .trying => false
  | _ => true

/-- Increments a thread has contributed to the shared counter: its completed
iterations, plus one for the current iteration once its write has landed. -/
def contrib (t : Thread) : Nat :=
  t.done + (if t.pc = ThreadPC.unlocking then 1 else 0)

/-- The inductive invariant: a clear flag means nobody holds the lock, at
most one thread holds it, a thread about to write holds the current counter
value, and the counter equals the landed contributions. -/
def SpinInv (T : Nat) (s : SpinSys T) : Prop :=
  (s.flag = false → ∀ i, holdsLock (s.threads i) = false)
  ∧ (∀ i j, holdsLock (s.threads i) = true → holdsLock (s.threads j) = true → i = j)
  ∧ (∀ i tmp d, s.threads i = ⟨ThreadPC.writing tmp, d⟩ → tmp = s.counter)
  ∧ s.counter = ∑ i, contrib (s.threads i)

/-- The final state of a one-thread, one-iteration run, used to exhibit a
concrete complete execution. -/
def spinRunFinal : SpinSys 1 :=
  ⟨false, 1, fun _ => ⟨.trying, 1⟩⟩

/-! ## Interleaving semantics of the one-time initialisation (line 158)

The C11 branch of `lock()` executes `call_once(&mtx_init_once, init_mtx)` and
only then `mtx_lock` (lines 158-160); the Windows branch is structurally
identical with `InitOnceExecuteOnce`/`InitCriticalSection` (lines 171-173).
The one-time guard itself lives in the platform runtime, so its documented
semantics is modelled: the first arriving thread wins the flag and runs the
construction; threads arriving while it runs block; threads arriving after
completion pass through. -/

/-- State of the once guard: `fresh` (`ONCE_FLAG_INIT`), `running i` while
thread `i` executes the construction, `done` afterwards. -/
inductive OnceFlag (T : Nat) where
  | fresh
  | running (owner : Fin T)
  | done
  deriving DecidableEq

/-- Program counter of a thread in the initialisation prefix of `lock()`:
`entry` is at the `call_once` of line 158, `runInit` is inside the guard as
the winner about to run the construction (`init_mtx`, successful case),
`acquire` is at the `mtx_lock` of line 160, `finished` past it. -/
inductive InitPC where
  | entry
  | runInit
  | acquire
  | finished
  deriving DecidableEq

/-- The shared system: the once flag, how many times the construction has
run, and `T` threads. -/
structure OnceSys (T : Nat) where
  flag : OnceFlag T
  initCount : Nat
  pcs : Fin T → InitPC
  deriving DecidableEq

/-- Initial state: `ONCE_FLAG_INIT`, construction never run, every thread at
the `call_once`. -/
def onceInit (T : Nat) : OnceSys T :=
  ⟨.fresh, 0, fun _ => .entry⟩

/-- One interleaved step of the once guard: `win` - an arriving thread finds
the guard fresh and claims it; `runConstruct` - the owner runs the
construction (counted) and completes the guard; `enterDone` - an arriving
thread finds the guard complete and passes through; `blockedWait` - an
arriving thread finds another thread constructing and blocks (no state
change); `doAcquire` - a thread past the guard performs the `mtx_lock`. -/
inductive OnceStep (T : Nat) : OnceSys T → OnceSys T → Prop
  | win (s : OnceSys T) (i : Fin T) :
      s.pcs i = .entry → s.flag = .fresh →
      OnceStep T s ⟨.running i, s.initCount, Function.update s.pcs i .runInit⟩
  | runConstruct (s : OnceSys T) (i : Fin T) :
      s.pcs i = .runInit → s.flag = .running i →
      OnceStep T s ⟨.done, s.initCount + 1, Function.update s.pcs i .acquire⟩
  | enterDone (s : OnceSys T) (i : Fin T) :
      s.pcs i = .entry → s.flag = .done →
      OnceStep T s ⟨s.flag, s.initCount, Function.update s.pcs i .acquire⟩
  | blockedWait (s : OnceSys T) (i : Fin T) (j : Fin T) :
      s.pcs i = .entry → s.flag = .running j →
      OnceStep T s s
  | doAcquire (s : OnceSys T) (i : Fin T) :
      s.pcs i = .acquire →
      OnceStep T s ⟨s.flag, s.initCount, Function.update s.pcs i .finished⟩

/-- The inductive invariant of the once guard: the construction count is 0
before completion and 1 after, threads at or past the acquisition see the
guard complete, and `runInit` is held exactly by the current owner. -/
def OnceInv (T : Nat) (s : OnceSys T) : Prop :=
  (s.flag = OnceFlag.done → s.initCount = 1)
  ∧ (s.flag ≠ OnceFlag.done → s.initCount = 0)
  ∧ (∀ i, s.pcs i = InitPC.acquire ∨ s.pcs i = InitPC.finished → s.flag = OnceFlag.done)
  ∧ (∀ i, s.pcs i = InitPC.runInit ↔ s.flag = OnceFlag.running i)

/-- The final state of a one-thread run through the guard, used to exhibit a
concrete complete execution. -/
def onceRunFinal : OnceSys 1 :=
  ⟨.done, 1, fun _ => .finished⟩

/-! ## Theorems -/

/-- C2.  Strategy selection: for every combination of the six capability
facts, `selectStrategy` binds each strategy exactly when its capability is
present and every higher-priority capability is absent, in the fixed order
C11 threads, POSIX threads, Windows, C11 atomics, atomic-exchange builtin,
sync builtin; whenever any capability is present exactly one strategy is
selected, and when all six are absent the result is `none` - the `#error`
case, compilation fails rather than producing an unsynchronized no-op lock. -/
theorem strategy_selection (c : PlatformCaps) :
    (∀ k, selectStrategy c = some k ↔
      ((k = .nativeMutex ∧ c.c11Threads = true)
      ∨ (k = .posixMutex ∧ c.c11Threads = false ∧ c.posixThreads = true)
      ∨ (k = .windowsCS ∧ c.c11Threads = false ∧ c.posixThreads = false
          ∧ c.win32 = true)
      ∨ (k = .atomicFlagSpin ∧ c.c11Threads = false ∧ c.posixThreads = false
          ∧ c.win32 = false ∧ c.c11Atomics = true)
      ∨ (k = .builtinAtomicSpin ∧ c.c11Threads = false ∧ c.posixThreads = false
          ∧ c.win32 = false ∧ c.c11Atomics = false ∧ c.gccAtomicBuiltin = true)
      ∨ (k = .builtinSyncSpin ∧ c.c11Threads = false ∧ c.posixThreads = false
          ∧ c.win32 = false ∧ c.c11Atomics = false ∧ c.gccAtomicBuiltin = false
          ∧ c.gccSyncBuiltin = true)))
    ∧ ((c.c11Threads = true ∨ c.posixThreads = true ∨ c.win32 = true
        ∨ c.c11Atomics = true ∨ c.gccAtomicBuiltin = true ∨ c.gccSyncBuiltin = true) →
        ∃ k, selectStrategy c = some k ∧ ∀ k2, selectStrategy c = some k2 → k2 = k)
    ∧ (selectStrategy c = none ↔
        c.c11Threads = false ∧ c.posixThreads = false ∧ c.win32 = false
        ∧ c.c11Atomics = false ∧ c.gccAtomicBuiltin = false ∧ c.gccSyncBuiltin = false) := by
  refine ⟨?_, ?_, ?_⟩
  · intro k
    unfold selectStrategy
    split_ifs with h1 h2 h3 h4 h5 h6 <;> cases k <;>
      simp_all [Bool.not_eq_true]
  · intro hcap
    unfold selectStrategy
    split_ifs with h1 h2 h3 h4 h5 h6
    · exact ⟨_, rfl, fun k2 h => (Option.some.inj h).symm⟩
    · exact ⟨_, rfl, fun k2 h => (Option.some.inj h).symm⟩
    · exact ⟨_, rfl, fun k2 h => (Option.some.inj h).symm⟩
    · exact ⟨_, rfl, fun k2 h => (Option.some.inj h).symm⟩
    · exact ⟨_, rfl, fun k2 h => (Option.some.inj h).symm⟩
    · exact ⟨_, rfl, fun k2 h => (Option.some.inj h).symm⟩
    · rcases hcap with hc | hc | hc | hc | hc | hc <;> simp_all
  · unfold selectStrategy
    split_ifs with h1 h2 h3 h4 h5 h6 <;> simp_all [Bool.not_eq_true]

/-- C10 counterexample.  The claim - any value of `GLOBAL_LOCK_FUNC_SCOPE`
other than `static` or blank makes the build fail - is false: the value
`extern` is neither, yet the definition it produces compiles. -/
theorem scope_validation_counterexample :
    ¬ (∀ s : String, buildAccepts (some s) = true → s = "static" ∨ s = "") := by
  intro h
  rcases h "extern" (by decide) with h1 | h1 <;> simp at h1

/-- C10 amended.  The header validates nothing: a user-supplied scope value is
passed through verbatim into the two function definitions, blank and `static`
compile, and so does any other token sequence that is a valid C
declaration-specifier prefix there (for example `extern`); only values the C
grammar rejects in that position fail the build. -/
theorem scope_not_validated :
    (∀ s, effectiveScope (some s) = s)
    ∧ effectiveScope none = ""
    ∧ buildAccepts none = true
    ∧ buildAccepts (some "static") = true
    ∧ buildAccepts (some "extern") = true
    ∧ lockFunctionDecl "extern" "global_lock_lock"
        = "extern void global_lock_lock (void)"
    ∧ lockFunctionDecl "static" "global_lock_lock"
        = "static void global_lock_lock (void)" := by
  refine ⟨fun s => rfl, rfl, ?_, ?_, ?_, ?_, ?_⟩ <;> decide

/-- C4.  Initialization failure: when `mtx_init` does not report
`thrd_success`, `init_mtx` writes one diagnostic to stderr that contains the
file name and the line number, terminates the process with the non-zero
status `EXIT_FAILURE`, and never returns; when construction succeeds it
returns normally. -/
theorem init_failure_terminates (r : Bool) :
    (r = false → ∃ msg, init_mtx r = .exited EXIT_FAILURE msg
      ∧ EXIT_FAILURE ≠ 0
      ∧ (∃ a b, msg = a ++ global_lock_FILE ++ b ++ toString init_mtx_LINE ++ "\n")
      ∧ init_mtx r ≠ .ret)
    ∧ (r = true → init_mtx r = .ret) := by
  constructor
  · rintro rfl
    refine ⟨_, rfl, by decide, ?_, by decide⟩
    exact ⟨"Failed to initialize the mutex!\nFile: ", "   Line: ", rfl⟩
  · rintro rfl
    rfl

/-- C3 counterexample.  The claim - on the Windows strategy a failed version
check terminates the process *and emits a diagnostic message* - is false: at
`winver_checked = false` with the query reporting major version 5, `lock()`
calls the bare `exit(EXIT_FAILURE)` of line 166, which emits nothing. -/
theorem winver_diagnostic_counterexample :
    ¬ (∀ q : Option Nat, is_windows_vista_or_later q = false →
        ∃ status msgs, winLock false q = WinLockOutcome.exited status msgs
          ∧ status ≠ 0 ∧ msgs ≠ []) := by
  intro h
  obtain ⟨st, msgs, heq, -, hne⟩ := h (some 5) (by decide)
  have : winLock false (some 5) = WinLockOutcome.exited EXIT_FAILURE [] := rfl
  rw [this] at heq
  cases heq
  exact hne rfl

/-- C3 amended.  Windows version check: when `lock()` runs with the version
not yet checked and the runtime query reports a major version below 6 (or
fails), the process terminates immediately with the non-zero status
`EXIT_FAILURE` *without emitting any diagnostic*, and `lock()` never reaches
the acquisition; when the major version is at least 6 (and whenever the check
was already passed), `lock()` proceeds normally to acquire. -/
theorem winver_check_behaviour (wc : Bool) (q : Option Nat) :
    (wc = false → is_windows_vista_or_later q = false →
      winLock wc q = .exited EXIT_FAILURE [] ∧ EXIT_FAILURE ≠ 0
        ∧ ∀ b, winLock wc q ≠ .acquired b)
    ∧ (is_windows_vista_or_later q = true → ∃ b, winLock wc q = .acquired b)
    ∧ (wc = true → ∃ b, winLock wc q = .acquired b)
    ∧ (is_windows_vista_or_later none = false)
    ∧ (∀ m, is_windows_vista_or_later (some m) = true ↔ 6 ≤ m) := by
  refine ⟨?_, ?_, ?_, rfl, fun m => by simp [is_windows_vista_or_later]⟩
  · rintro rfl hq
    refine ⟨by simp [winLock, hq], by decide, ?_⟩
    intro b
    simp [winLock, hq]
  · intro hq
    cases wc
    · exact ⟨true, by simp [winLock, hq]⟩
    · exact ⟨true, rfl⟩
  · rintro rfl
    exact ⟨true, rfl⟩

/-- C9.  Shutdown effect: `global_lock_quit` destroys the mutex object on the
C11 and POSIX strategies, deletes the critical-section object on the Windows
strategy, and on each of the three spin strategies is a complete no-op -
the entire program state is returned unchanged. -/
theorem shutdown_effect (s : ProgState) :
    (global_lock_quit .nativeMutex s).mutexDestroyed = true
    ∧ (global_lock_quit .posixMutex s).mutexDestroyed = true
    ∧ (global_lock_quit .windowsCS s).csDeleted = true
    ∧ global_lock_quit .atomicFlagSpin s = s
    ∧ global_lock_quit .builtinAtomicSpin s = s
    ∧ global_lock_quit .builtinSyncSpin s = s
    ∧ (global_lock_quit .nativeMutex s).flag = s.flag
    ∧ (global_lock_quit .posixMutex s).lockInt = s.lockInt := by
  exact ⟨rfl, rfl, rfl, rfl, rfl, rfl, rfl, rfl⟩

/-- Helper: folding the busy-loop body over any iteration list leaves the
state unchanged. -/
lemma foldl_barrier (l : List Nat) (s : ProgState) :
    l.foldl (fun a _ => barrierStep a) s = s := by
  induction l generalizing s with
  | nil => rfl
  | cons x xs ih => exact ih s

/-- C8.  SpinWait selection and purity: the spin-wait primitive is chosen by
the secondary probe - the pause instruction on x86/x86-64 targets regardless
of the other fact, else `sched_yield` when POSIX priority scheduling is
available, else the busy loop of exactly `busyLoopCount = 1000` iterations -
and every variant returns the lock state exactly as it received it: no
failure value exists and no lock state is read or written. -/
theorem spin_wait_selection_and_frame :
    (∀ p, selectSpinWait true p = .pause)
    ∧ selectSpinWait false true = .schedYield
    ∧ selectSpinWait false false = .busyLoop
    ∧ (∀ k s, (spinWaitRun k s).1 = s)
    ∧ (∀ s, (spinWaitRun .busyLoop s).2 = 1000)
    ∧ busyLoopCount = 1000 := by
  refine ⟨fun p => rfl, rfl, rfl, ?_, ?_, rfl⟩
  · intro k s
    cases k with
    | pause => rfl
    | schedYield => rfl
    | busyLoop =>
      simp only [spinWaitRun]
      exact foldl_barrier _ s
  · intro s
    simp only [spinWaitRun, busyLoopCount]

/-- Helper: the flag loop exits with exactly `k` spin waits when the first
`k` attempts observe the flag taken and the next observes it clear. -/
lemma spinLockRunFlag_replicate (k : Nat) (rest : List Bool) :
    spinLockRunFlag (List.replicate k true ++ false :: rest) = some k := by
  induction k with
  | zero => simp [spinLockRunFlag, atomic_flag_test_and_set]
  | succ n ih =>
    simp [List.replicate_succ, spinLockRunFlag, atomic_flag_test_and_set, ih]

/-- Helper: while every attempt observes the flag taken, the flag loop is
still running - for every number of attempts. -/
lemma spinLockRunFlag_allBusy (k : Nat) :
    spinLockRunFlag (List.replicate k true) = none := by
  induction k with
  | zero => rfl
  | succ n ih =>
    simp [List.replicate_succ, spinLockRunFlag, atomic_flag_test_and_set, ih]

/-- Helper: the exchange loop (atomic builtin) exits with exactly `k` spin
waits when the first `k` attempts observe 1 and the next observes 0. -/
lemma spinLockRunAtomic_replicate (k : Nat) (rest : List Nat) :
    spinLockRunAtomic (List.replicate k 1 ++ 0 :: rest) = some k := by
  induction k with
  | zero => simp [spinLockRunAtomic, atomic_exchange_n]
  | succ n ih =>
    simp [List.replicate_succ, spinLockRunAtomic, atomic_exchange_n, ih]

/-- Helper: the exchange loop never exits while contended. -/
lemma spinLockRunAtomic_allBusy (k : Nat) :
    spinLockRunAtomic (List.replicate k 1) = none := by
  induction k with
  | zero => rfl
  | succ n ih =>
    simp [List.replicate_succ, spinLockRunAtomic, atomic_exchange_n, ih]

/-- Helper: the sync-builtin loop exits with exactly `k` spin waits when the
first `k` attempts observe 1 and the next observes 0. -/
lemma spinLockRunSync_replicate (k : Nat) (rest : List Nat) :
    spinLockRunSync (List.replicate k 1 ++ 0 :: rest) = some k := by
  induction k with
  | zero => simp [spinLockRunSync, sync_lock_test_and_set]
  | succ n ih =>
    simp [List.replicate_succ, spinLockRunSync, sync_lock_test_and_set, ih]

/-- Helper: the sync-builtin loop never exits while contended. -/
lemma spinLockRunSync_allBusy (k : Nat) :
    spinLockRunSync (List.replicate k 1) = none := by
  induction k with
  | zero => rfl
  | succ n ih =>
    simp [List.replicate_succ, spinLockRunSync, sync_lock_test_and_set, ih]

/-- C6.  Spin-lock algorithm, on each of the three spin strategies: the loop
retries the atomic test-and-set/exchange, invoking `SPIN_WAIT()` exactly once
after each failed attempt (`some k` after `k` contended attempts), exits only
upon an attempt that observes the flag clear - and that attempt stores the
taken value - and never gives up while contended, for every contention
length: there is no backoff cap and no timeout.  The three unlock operations
store the clear value unconditionally, whatever the flag held, and return
nothing (their codomain carries the new flag value only - no error value
exists). -/
theorem spin_lock_algorithm :
    (∀ k rest, spinLockRunFlag (List.replicate k true ++ false :: rest) = some k)
    ∧ (∀ k, spinLockRunFlag (List.replicate k true) = none)
    ∧ (∀ k rest, spinLockRunAtomic (List.replicate k 1 ++ 0 :: rest) = some k)
    ∧ (∀ k, spinLockRunAtomic (List.replicate k 1) = none)
    ∧ (∀ k rest, spinLockRunSync (List.replicate k 1 ++ 0 :: rest) = some k)
    ∧ (∀ k, spinLockRunSync (List.replicate k 1) = none)
    ∧ (∀ b, atomic_flag_test_and_set b = (b, true))
    ∧ (∀ v, atomic_exchange_n v = (v, 1))
    ∧ (∀ v, sync_lock_test_and_set v = (v, 1))
    ∧ (∀ b, atomic_flag_clear b = false)
    ∧ (∀ v, atomic_store_n_zero v = 0)
    ∧ (∀ v, sync_lock_release v = 0) :=
  ⟨spinLockRunFlag_replicate, spinLockRunFlag_allBusy,
    spinLockRunAtomic_replicate, spinLockRunAtomic_allBusy,
    spinLockRunSync_replicate, spinLockRunSync_allBusy,
    fun _ => rfl, fun _ => rfl, fun _ => rfl,
    fun _ => rfl, fun _ => rfl, fun _ => rfl⟩

/-- Helper: every action of the spin loop's trace is an attempt or a spin
wait. -/
lemma spinAttemptTrace_mem (f : Nat) (a : LockAction)
    (ha : a ∈ spinAttemptTrace f) : a = .tasAttempt ∨ a = .spinWait := by
  induction f with
  | zero =>
    simp [spinAttemptTrace] at ha
    exact Or.inl ha
  | succ n ih =>
    simp [spinAttemptTrace] at ha
    rcases ha with h | h | h
    · exact Or.inl h
    · exact Or.inr h
    · exact ih (by simpa using h)

/-- Helper: the spin loop's first action is always a test-and-set attempt. -/
lemma spinAttemptTrace_head (f : Nat) :
    (spinAttemptTrace f).head? = some .tasAttempt := by
  cases f <;> rfl

/-- C7.  Trivially-initializable strategies skip initialization: on the POSIX
strategy (mutex statically constructed by `PTHREAD_MUTEX_INITIALIZER`) and on
each of the three spin strategies (flag statically clear), `lock()` performs
no initialization action at all - its trace contains neither the call-once
guard nor the version check, for every contention - and its very first
action is an acquisition (the blocking acquire, resp. a test-and-set
attempt). -/
theorem trivially_initialized_lock_first (k : LockPrimitiveKind)
    (hk : k = LockPrimitiveKind.posixMutex ∨ k = LockPrimitiveKind.atomicFlagSpin
      ∨ k = LockPrimitiveKind.builtinAtomicSpin ∨ k = LockPrimitiveKind.builtinSyncSpin)
    (w : Bool) (f : Nat) :
    LockAction.onceInit ∉ lockTrace k w f
    ∧ LockAction.versionCheck ∉ lockTrace k w f
    ∧ (∃ a, (lockTrace k w f).head? = some a ∧ isAcquireAction a = true) := by
  have spin : ∀ g : Nat, LockAction.onceInit ∉ spinAttemptTrace g
      ∧ LockAction.versionCheck ∉ spinAttemptTrace g
      ∧ (∃ a, (spinAttemptTrace g).head? = some a ∧ isAcquireAction a = true) := by
    intro g
    refine ⟨fun hmem => ?_, fun hmem => ?_, ⟨.tasAttempt, spinAttemptTrace_head g, rfl⟩⟩
    · rcases spinAttemptTrace_mem g _ hmem with h | h <;> cases h
    · rcases spinAttemptTrace_mem g _ hmem with h | h <;> cases h
  rcases hk with rfl | rfl | rfl | rfl
  · refine ⟨?_, ?_, ⟨.acquireBlocking, rfl, rfl⟩⟩ <;> simp [lockTrace]
  · exact spin f
  · exact spin f
  · exact spin f

/-- C7 witness: the POSIX strategy at a concrete input. -/
theorem trivially_initialized_lock_first_witness :
    LockAction.onceInit ∉ lockTrace LockPrimitiveKind.posixMutex true 0
    ∧ LockAction.versionCheck ∉ lockTrace LockPrimitiveKind.posixMutex true 0
    ∧ (∃ a, (lockTrace LockPrimitiveKind.posixMutex true 0).head? = some a
        ∧ isAcquireAction a = true) :=
  trivially_initialized_lock_first LockPrimitiveKind.posixMutex (Or.inl rfl) true 0

/-- Helper: effect of an update at `i` on the sum of contributions. -/
lemma sum_contrib_update {T : Nat} (f : Fin T → Thread) (i : Fin T) (t : Thread) :
    (∑ j, contrib (Function.update f i t j)) + contrib (f i)
      = (∑ j, contrib (f j)) + contrib t := by
  have h : (fun j => contrib (Function.update f i t j))
      = Function.update (fun j => contrib (f j)) i (contrib t) := by
    funext j
    rcases eq_or_ne j i with rfl | hj
    · simp
    · simp [Function.update_noteq hj]
  rw [h, Finset.sum_update_of_mem (Finset.mem_univ i),
    Finset.sum_eq_sum_diff_singleton_add (Finset.mem_univ i) (fun j => contrib (f j))]
  omega

/-- Helper: a thread unchanged by an update keeps its holder status; the
updated slot takes the new thread's. -/
lemma holdsLock_update {T : Nat} (f : Fin T → Thread) (i : Fin T) (t : Thread)
    (j : Fin T) (hj : j ≠ i) :
    holdsLock (Function.update f i t j) = holdsLock (f j) := by
  rw [Function.update_noteq hj]

/-- Helper: the invariant is preserved by every step. -/
lemma spin_inv_step {T N : Nat} {s s2 : SpinSys T}
    (hinv : SpinInv T s) (hstep : SpinStep T N s s2) : SpinInv T s2 := by
  obtain ⟨h1, h2, h3, h4⟩ := hinv
  cases hstep with
  | acquire i d hthread hd hflag =>
    have hnone := h1 hflag
    refine ⟨?_, ?_, ?_, ?_⟩ <;> dsimp only
    · intro hf
      cases hf
    · intro j k hj hk
      by_cases hji : j = i
      · by_cases hki : k = i
        · rw [hji, hki]
        · rw [Function.update_noteq hki, hnone k] at hk
          cases hk
      · rw [Function.update_noteq hji, hnone j] at hj
        cases hj
    · intro j tmp d2 hj
      by_cases hji : j = i
      · rw [hji, Function.update_same] at hj
        injection hj with hpc hdone
        cases hpc
      · rw [Function.update_noteq hji] at hj
        exact h3 j tmp d2 hj
    · have hsum := sum_contrib_update s.threads i ⟨ThreadPC.reading, d⟩
      rw [hthread] at hsum
      have e1 : contrib ⟨ThreadPC.trying, d⟩ = d := rfl
      have e2 : contrib ⟨ThreadPC.reading, d⟩ = d := rfl
      rw [e1, e2] at hsum
      nth_rewrite 1 [h4]
      omega
  | spinFail i d hthread hd hflag =>
    exact ⟨h1, h2, h3, h4⟩
  | readCounter i d hthread =>
    have hhold : holdsLock (s.threads i) = true := by rw [hthread]; rfl
    refine ⟨?_, ?_, ?_, ?_⟩ <;> dsimp only
    · intro hf
      have hcontra := h1 hf i
      rw [hhold] at hcontra
      cases hcontra
    · intro j k hj hk
      have hj2 : holdsLock (s.threads j) = true := by
        by_cases hji : j = i
        · rw [hji]
          exact hhold
        · rwa [Function.update_noteq hji] at hj
      have hk2 : holdsLock (s.threads k) = true := by
        by_cases hki : k = i
        · rw [hki]
          exact hhold
        · rwa [Function.update_noteq hki] at hk
      exact h2 j k hj2 hk2
    · intro j tmp d2 hj
      by_cases hji : j = i
      · rw [hji, Function.update_same] at hj
        injection hj with hpc hdone
        injection hpc with htmp
        exact htmp.symm
      · rw [Function.update_noteq hji] at hj
        exact h3 j tmp d2 hj
    · have hsum := sum_contrib_update s.threads i ⟨ThreadPC.writing s.counter, d⟩
      rw [hthread] at hsum
      have e1 : contrib ⟨ThreadPC.reading, d⟩ = d := rfl
      have e2 : contrib ⟨ThreadPC.writing s.counter, d⟩ = d := rfl
      rw [e1, e2] at hsum
      nth_rewrite 1 [h4]
      omega
  | writeCounter i d tmp hthread =>
    have hhold : holdsLock (s.threads i) = true := by rw [hthread]; rfl
    have htmp : tmp = s.counter := h3 i tmp d hthread
    refine ⟨?_, ?_, ?_, ?_⟩ <;> dsimp only
    · intro hf
      have hcontra := h1 hf i
      rw [hhold] at hcontra
      cases hcontra
    · intro j k hj hk
      have hj2 : holdsLock (s.threads j) = true := by
        by_cases hji : j = i
        · rw [hji]
          exact hhold
        · rwa [Function.update_noteq hji] at hj
      have hk2 : holdsLock (s.threads k) = true := by
        by_cases hki : k = i
        · rw [hki]
          exact hhold
        · rwa [Function.update_noteq hki] at hk
      exact h2 j k hj2 hk2
    · intro j tmp2 d2 hj
      by_cases hji : j = i
      · rw [hji, Function.update_same] at hj
        injection hj with hpc hdone
        cases hpc
      · rw [Function.update_noteq hji] at hj
        have hjh : holdsLock (s.threads j) = true := by rw [hj]; rfl
        exact absurd (h2 j i hjh hhold) hji
    · have hsum := sum_contrib_update s.threads i ⟨ThreadPC.unlocking, d⟩
      rw [hthread] at hsum
      have e1 : contrib ⟨ThreadPC.writing tmp, d⟩ = d := rfl
      have e2 : contrib ⟨ThreadPC.unlocking, d⟩ = d + 1 := rfl
      rw [e1, e2] at hsum
      rw [htmp, h4]
      omega
  | release i d hthread =>
    have hhold : holdsLock (s.threads i) = true := by rw [hthread]; rfl
    have honly : ∀ j, j ≠ i → holdsLock (s.threads j) = false := by
      intro j hji
      cases hj : holdsLock (s.threads j)
      · rfl
      · exact absurd (h2 j i hj hhold) hji
    refine ⟨?_, ?_, ?_, ?_⟩ <;> dsimp only
    · intro _ j
      by_cases hji : j = i
      · rw [hji, Function.update_same]
        rfl
      · rw [Function.update_noteq hji]
        exact honly j hji
    · intro j k hj hk
      exfalso
      by_cases hji : j = i
      · rw [hji, Function.update_same] at hj
        cases hj
      · rw [Function.update_noteq hji, honly j hji] at hj
        cases hj
    · intro j tmp d2 hj
      by_cases hji : j = i
      · rw [hji, Function.update_same] at hj
        injection hj with hpc hdone
        cases hpc
      · rw [Function.update_noteq hji] at hj
        have hjh : holdsLock (s.threads j) = true := by rw [hj]; rfl
        rw [honly j hji] at hjh
        cases hjh
    · have hsum := sum_contrib_update s.threads i ⟨ThreadPC.trying, d + 1⟩
      rw [hthread] at hsum
      have e1 : contrib ⟨ThreadPC.unlocking, d⟩ = d + 1 := rfl
      have e2 : contrib ⟨ThreadPC.trying, d + 1⟩ = d + 1 := rfl
      rw [e1, e2] at hsum
      nth_rewrite 1 [h4]
      omega

/-- Helper: the invariant holds initially. -/
lemma spin_inv_init (T : Nat) : SpinInv T (spinInit T) := by
  refine ⟨fun _ i => rfl, fun i j hi hj => ?_, fun i tmp d h => ?_, ?_⟩
  · simp [spinInit, holdsLock] at hi
  · simp [spinInit] at h
  · simp [spinInit, contrib]

/-- Helper: the invariant holds in every reachable state. -/
lemma spin_inv_reachable {T N : Nat} {s : SpinSys T}
    (h : Relation.ReflTransGen (SpinStep T N) (spinInit T) s) : SpinInv T s := by
  induction h with
  | refl => exact spin_inv_init T
  | tail _ hstep ih => exact spin_inv_step ih hstep

/-- C1.  Mutual exclusion, no lost updates: for every thread count `T` and
every per-thread iteration count `N`, in every interleaved execution of the
spin lock that starts from the initial state and ends with every thread back
at `trying` having completed its `N` iterations, the shared counter equals
exactly `T * N` - the exact sum of all increments, none lost.  (The blocking
strategies delegate acquire/release to the platform mutex, whose
acquire-when-free/release semantics this step relation also is; the spin
branches are the algorithm the header itself implements.) -/
theorem spin_lock_mutual_exclusion (T N : Nat) (s : SpinSys T)
    (h : Relation.ReflTransGen (SpinStep T N) (spinInit T) s)
    (hfin : ∀ i, s.threads i = ⟨ThreadPC.trying, N⟩) :
    s.counter = T * N := by
  obtain ⟨-, -, -, h4⟩ := spin_inv_reachable h
  rw [h4, Finset.sum_congr rfl (fun i _ => by rw [hfin i])]
  simp [contrib, Finset.sum_const, Finset.card_univ, Nat.mul_comm]

/-- Helper: a complete one-thread one-iteration run of the spin lock:
acquire, read, write, release. -/
lemma spin_run_reachable :
    Relation.ReflTransGen (SpinStep 1 1) (spinInit 1) spinRunFinal := by
  refine Relation.ReflTransGen.head (SpinStep.acquire _ 0 0 rfl (by decide) rfl) ?_
  refine Relation.ReflTransGen.head (SpinStep.readCounter _ 0 0 (by decide)) ?_
  refine Relation.ReflTransGen.head (SpinStep.writeCounter _ 0 0 0 (by decide)) ?_
  refine Relation.ReflTransGen.head (SpinStep.release _ 0 0 (by decide)) ?_
  convert Relation.ReflTransGen.refl using 2
  decide

/-- C1 witness: the concrete run above ends with the one thread having done
its one iteration, and the counter is exactly 1 * 1. -/
theorem spin_lock_mutual_exclusion_witness :
    spinRunFinal.counter = 1 * 1 :=
  spin_lock_mutual_exclusion 1 1 spinRunFinal spin_run_reachable (by decide)

/-- Helper: the once-guard invariant is preserved by every step. -/
lemma once_inv_step {T : Nat} {s s2 : OnceSys T}
    (hinv : OnceInv T s) (hstep : OnceStep T s s2) : OnceInv T s2 := by
  obtain ⟨g1, g2, g3, g4⟩ := hinv
  cases hstep with
  | win i hpc hflag =>
    refine ⟨?_, ?_, ?_, ?_⟩ <;> dsimp only
    · intro hf
      cases hf
    · intro _
      exact g2 (by rw [hflag]; intro h; cases h)
    · intro j hj
      exfalso
      have := g3 j ?_
      · rw [hflag] at this
        cases this
      · by_cases hji : j = i
        · rw [hji, Function.update_same] at hj
          rcases hj with h | h <;> cases h
        · rwa [Function.update_noteq hji] at hj
    · intro j
      by_cases hji : j = i
      · rw [hji, Function.update_same]
        simp
      · rw [Function.update_noteq hji]
        constructor
        · intro hj
          have := (g4 j).mp hj
          rw [hflag] at this
          cases this
        · intro hj
          injection hj with hji2
          exact absurd hji2.symm hji
  | runConstruct i hpc hflag =>
    have hcount : s.initCount = 0 := g2 (by rw [hflag]; intro h; cases h)
    refine ⟨?_, ?_, ?_, ?_⟩ <;> dsimp only
    · intro _
      rw [hcount]
    · intro hf
      exact absurd rfl hf
    · intro j _
      rfl
    · intro j
      constructor
      · intro hj
        by_cases hji : j = i
        · rw [hji, Function.update_same] at hj
          cases hj
        · rw [Function.update_noteq hji] at hj
          have := (g4 j).mp hj
          rw [hflag] at this
          injection this with h
          exact absurd h.symm hji
      · intro hj
        cases hj
  | enterDone i hpc hflag =>
    refine ⟨?_, ?_, ?_, ?_⟩ <;> dsimp only
    · exact g1
    · exact g2
    · intro j _
      exact hflag
    · intro j
      rw [hflag]
      constructor
      · intro hj
        by_cases hji : j = i
        · rw [hji, Function.update_same] at hj
          cases hj
        · rw [Function.update_noteq hji] at hj
          have := (g4 j).mp hj
          rw [hflag] at this
          cases this
      · intro hj
        cases hj
  | blockedWait i j hpc hflag =>
    exact ⟨g1, g2, g3, g4⟩
  | doAcquire i hpc =>
    have hflag : s.flag = OnceFlag.done := g3 i (Or.inl hpc)
    refine ⟨?_, ?_, ?_, ?_⟩ <;> dsimp only
    · exact g1
    · exact g2
    · intro j _
      exact hflag
    · intro j
      rw [hflag]
      constructor
      · intro hj
        by_cases hji : j = i
        · rw [hji, Function.update_same] at hj
          cases hj
        · rw [Function.update_noteq hji] at hj
          have := (g4 j).mp hj
          rw [hflag] at this
          cases this
      · intro hj
        cases hj

/-- Helper: the once-guard invariant holds initially. -/
lemma once_inv_init (T : Nat) : OnceInv T (onceInit T) := by
  refine ⟨fun hf => ?_, fun _ => rfl, fun i hi => ?_, fun i => ?_⟩
  · cases hf
  · rcases hi with h | h <;> cases h
  · constructor
    · intro h
      cases h
    · intro h
      cases h

/-- Helper: the once-guard invariant holds in every reachable state. -/
lemma once_inv_reachable {T : Nat} {s : OnceSys T}
    (h : Relation.ReflTransGen (OnceStep T) (onceInit T) s) : OnceInv T s := by
  induction h with
  | refl => exact once_inv_init T
  | tail _ hstep ih => exact once_inv_step ih hstep

/-- C5.  Lazy-init exactly once: in every interleaved execution of `lock()`
calls through the one-time guard (`call_once` on the C11 strategy,
`InitOnceExecuteOnce` on the Windows strategy), starting from the fresh
guard, the construction step runs at most once in every reachable state, and
every thread that has reached (or passed) the acquisition has the guard
complete with the construction having run exactly once - so every caller
observes a fully constructed resource before attempting acquisition, and the
construction never runs a second time. -/
theorem lazy_init_exactly_once (T : Nat) (s : OnceSys T)
    (h : Relation.ReflTransGen (OnceStep T) (onceInit T) s) :
    s.initCount ≤ 1
    ∧ (∀ i, s.pcs i = InitPC.acquire ∨ s.pcs i = InitPC.finished →
        s.flag = OnceFlag.done ∧ s.initCount = 1) := by
  obtain ⟨g1, g2, g3, g4⟩ := once_inv_reachable h
  constructor
  · by_cases hf : s.flag = OnceFlag.done
    · rw [g1 hf]
    · rw [g2 hf]
      omega
  · intro i hi
    have hd := g3 i hi
    exact ⟨hd, g1 hd⟩

/-- Helper: a complete one-thread run through the guard: win the fresh flag,
run the construction, then acquire. -/
lemma once_run_reachable :
    Relation.ReflTransGen (OnceStep 1) (onceInit 1) onceRunFinal := by
  refine Relation.ReflTransGen.head (OnceStep.win _ 0 rfl rfl) ?_
  refine Relation.ReflTransGen.head (OnceStep.runConstruct _ 0 (by decide) rfl) ?_
  refine Relation.ReflTransGen.head (OnceStep.doAcquire _ 0 (by decide)) ?_
  convert Relation.ReflTransGen.refl using 2
  decide

/-- C5 witness: the concrete run above ran the construction exactly once and
its thread saw the guard complete. -/
theorem lazy_init_exactly_once_witness :
    onceRunFinal.initCount ≤ 1
    ∧ (∀ i, onceRunFinal.pcs i = InitPC.acquire ∨ onceRunFinal.pcs i = InitPC.finished →
        onceRunFinal.flag = OnceFlag.done ∧ onceRunFinal.initCount = 1) :=
  lazy_init_exactly_once 1 onceRunFinal once_run_reachable

end GlobalLock
